import Mathlib

/-!
Shallow embedding of the `job-application-system` repository and proofs about it.

The embedding follows the Python sources:
* `utils/database.py` (`DatabaseManager`),
* `utils/anti_detection.py` (`RateLimiter`),
* `agents/analysis_agent.py` (`AnalysisAgent`),
* `agents/application_agent.py` (`ApplicationAgent`),
* `agents/scraping_agent.py` (the dedup guard around `insert_job`).

Numeric scores are modelled by `ℚ` (Python floats; every literal in the scoring
code is a multiple of 1/10, so the rational model is exact).  Time is modelled
in whole seconds for the analysis code and by `ℚ` for the rate limiter
(`time.time()` values).
-/

namespace JobApp

/-! ## String utilities -/

/-- Python's substring test `needle in hay` on lists of characters. -/
def listContains (needle : List Char) : List Char → Bool
  | [] => needle.isEmpty
  | c :: cs => needle.isPrefixOf (c :: cs) || listContains needle cs

/-- Python's substring test `needle in hay` on strings. -/
def pyIn (needle hay : String) : Bool :=
  listContains needle.toList hay.toList

/-- Regex word character (`\w`): letters, digits or underscore (ASCII model). -/
def isWordChar (c : Char) : Bool := c.isAlphanum || c == '_'

def optIsWord : Option Char → Bool
  | none => false
  | some c => isWordChar c

/-- Whether the zero-width assertion `\b` matches between positions `i-1` and `i`
of `text`: exactly one side is a word character (start/end of text count as
non-word). -/
def boundaryAt (text : List Char) (i : Nat) : Bool :=
  optIsWord (if i = 0 then none else text[i-1]?) != optIsWord text[i]?

/-- Whether the pattern `\b` ++ `pat` ++ `\b` matches at position `i` of `text`. -/
def matchWordAt (text pat : List Char) (i : Nat) : Bool :=
  ((text.drop i).take pat.length == pat) && boundaryAt text i &&
    boundaryAt text (i + pat.length)

/-- Models `re.search(r'\b' + re.escape(skill) + r'\b', text, re.IGNORECASE)` for
an already-lowercased skill and text (`_calculate_skill_score` lowercases both
beforehand, so `IGNORECASE` is inert). -/
def wordSearch (pat text : String) : Bool :=
  let t := text.toList
  (List.range (t.length + 1)).any (matchWordAt t pat.toList)

/-- Models Python `(d.get(k) or '')`: an absent field becomes the empty string. -/
def orEmpty : Option String → String
  | none => ""
  | some s => s

/-- Models Python `str.lower()` characterwise (ASCII case model; the
lowercasing of non-ASCII letters plays no role in any claim). -/
def pyLower (s : String) : String := ⟨s.data.map Char.toLower⟩

/-! ## Data model for `analysis_agent.py` -/

/-- The `post_date` field of a job dict, as seen by `_calculate_recency_score`:

* `missing`: the field is absent, `None` or an empty string (`if not post_date`);
* `failed`: any value for which the `try` block raises — an unparseable string
  (`datetime.fromisoformat` raises) or a timezone-aware value (subtracting it
  from the naive `datetime.now()` raises); both land in the
  `except Exception` branch;
* `parsed t`: a naive datetime that parses fine, `t` seconds since the epoch. -/
inductive PostDate where
  | missing
  | failed
  | parsed (t : Int)
deriving DecidableEq

/-- A job dict as passed to `AnalysisAgent.analyze_job`.  Text fields are
`Option String` (a missing key or a SQL `NULL`). -/
structure Job where
  title : Option String := none
  company : Option String := none
  location : Option String := none
  description : Option String := none
  requirements : Option String := none
  job_type : Option String := none
  experience_level : Option String := none
  post_date : PostDate := .missing
deriving DecidableEq

/-- The configuration-derived fields stored on an `AnalysisAgent` by
`__init__`: `high_priority_keywords`, `medium_priority_keywords` and
`exclude_keywords` are kept lowercased (as `__init__` lowercases them), and
`user_skills` is the lowercased concatenation produced by
`_extract_user_skills`.  `role_types` and the two location lists are the raw
profile lists (`user_profile['role_types']`, `user_profile['locations']`),
which the score methods lowercase at their use sites. -/
structure AnalysisAgent where
  high_priority_keywords : List String := []
  medium_priority_keywords : List String := []
  exclude_keywords : List String := []
  user_skills : List String := []
  role_types : List String := []
  preferred_locations : List String := []
  acceptable_locations : List String := []
deriving DecidableEq

namespace AnalysisAgent

/-- Models `_get_combined_text`: joins the non-empty, non-`None` text fields
with single spaces (`' '.join(filter(None, fields))`). -/
def _get_combined_text (job : Job) : String :=
  String.intercalate " "
    (([job.title, job.description, job.requirements, job.company,
       job.location].filterMap id).filter (fun s => s != ""))

/-- Models `_calculate_keyword_score`: 0.4 per matched high-priority keyword,
0.2 per matched medium-priority keyword, capped at 4.0, plus the tagged match
list. -/
def _calculate_keyword_score (self : AnalysisAgent) (text : String) :
    ℚ × List String :=
  let highs := self.high_priority_keywords.filter (fun k => pyIn k text)
  let meds := self.medium_priority_keywords.filter (fun k => pyIn k text)
  (min 4 ((2/5 : ℚ) * highs.length + (1/5 : ℚ) * meds.length),
    highs.map (fun k => "HIGH:" ++ k) ++ meds.map (fun k => "MEDIUM:" ++ k))

/-- Models `_calculate_skill_score`: 0.3 per skill matched as a whole word,
capped at 3.0. -/
def _calculate_skill_score (self : AnalysisAgent) (text : String) :
    ℚ × List String :=
  let matched := self.user_skills.filter (fun s => wordSearch s text)
  (min 3 ((3/10 : ℚ) * matched.length), matched)

/-- Models `_calculate_job_type_score`: 1.0 on a preferred role-type match in
the explicit `job_type` field or in title+description; else 0.3 when `'cdi'`
appears while `'alternance'` is not among the preferred types; else 0.5. -/
def _calculate_job_type_score (self : AnalysisAgent) (job : Job) : ℚ × Bool :=
  let job_type := pyLower (orEmpty job.job_type)
  let title := pyLower (orEmpty job.title)
  let description := pyLower (orEmpty job.description)
  let preferred_types := self.role_types.map pyLower
  if job_type != "" && preferred_types.any (fun p => pyIn p job_type) then
    (1, true)
  else
    let combined_text := title ++ " " ++ description
    if preferred_types.any (fun p => pyIn p combined_text) then (1, true)
    else if pyIn "cdi" combined_text && !preferred_types.contains "alternance" then
      (3/10, false)
    else (1/2, false)

/-- The `senior_indicators` list of `_calculate_experience_score`. -/
def senior_indicators : List String :=
  ["senior", "confirmé", "expert", "lead", "principal",
   "5+ years", "5 ans", "6 ans", "7 ans", "8 ans", "10 ans",
   "10+ years", "15 years", "15 ans"]

/-- The `junior_indicators` list of `_calculate_experience_score`. -/
def junior_indicators : List String :=
  ["junior", "débutant", "entry level", "graduate",
   "0-2 years", "1-2 ans", "2-3 ans", "alternance",
   "stage", "apprentissage", "première expérience"]

/-- The combined text searched by `_calculate_experience_score`:
`title + ' ' + description + ' ' + experience_level`, lowercased. -/
def experienceText (job : Job) : String :=
  pyLower (orEmpty job.title) ++ " " ++ pyLower (orEmpty job.description) ++
    " " ++ pyLower (orEmpty job.experience_level)

/-- Models `_calculate_experience_score` (the method reads nothing from
`self`): 0.0 on any senior indicator, else 1.0 on any junior indicator, else
0.7. -/
def _calculate_experience_score (job : Job) : ℚ × Bool :=
  let combined_text := experienceText job
  if senior_indicators.any (fun s => pyIn s combined_text) then (0, false)
  else if junior_indicators.any (fun s => pyIn s combined_text) then (1, true)
  else (7/10, true)

/-- Models `_calculate_location_score`: 0.5 preferred, 0.3 acceptable, 0.4
remote indicator, else 0.1. -/
def _calculate_location_score (self : AnalysisAgent) (job : Job) : ℚ × Bool :=
  let location := pyLower (orEmpty job.location)
  let preferred := self.preferred_locations.map pyLower
  let acceptable := self.acceptable_locations.map pyLower
  if preferred.any (fun p => pyIn p location) then (1/2, true)
  else if acceptable.any (fun a => pyIn a location) then (3/10, true)
  else if ["remote", "télétravail", "full remote", "hybride"].any
      (fun w => pyIn w location) then (2/5, true)
  else (1/10, false)

/-- Models `_calculate_recency_score`; `now` is `datetime.now()` in seconds
since the epoch and `days_old` mirrors `(datetime.now() - post_date).days`
(floor division of the elapsed seconds by 86400). -/
def _calculate_recency_score (now : Int) (job : Job) : ℚ :=
  match job.post_date with
  | .missing => 1/4
  | .failed => 1/4
  | .parsed t =>
    let days_old := (now - t).fdiv 86400
    if days_old ≤ 1 then 1/2
    else if days_old ≤ 3 then 2/5
    else if days_old ≤ 7 then 3/10
    else if days_old ≤ 14 then 1/5
    else 1/10

/-- Models `_check_exclusions`: 2.0 per matched exclusion keyword, capped at
5.0, plus the list of matches. -/
def _check_exclusions (self : AnalysisAgent) (text : String) :
    ℚ × List String :=
  let matched := self.exclude_keywords.filter (fun k => pyIn k text)
  (min 5 ((2 : ℚ) * matched.length), matched)

end AnalysisAgent

/-- Models Python `round(x, 2)`.  Every score the analysis code produces is a
multiple of 1/10, on which rounding to two decimals is exact, so the
half-up/half-even difference between `round` here and Python's banker's
rounding can never be observed. -/
def round2 (x : ℚ) : ℚ := ((round (100 * x) : ℤ) : ℚ) / 100

/-- The `individual_scores` entry of `match_details` — note the code stores
`exclusion_penalty` as a key of the same `scores` dict that it then sums. -/
structure IndividualScores where
  keywords : ℚ
  skills : ℚ
  job_type : ℚ
  experience : ℚ
  location : ℚ
  recency : ℚ
  exclusion_penalty : ℚ
deriving DecidableEq

/-- The `match_details` dict returned by `analyze_job`. -/
structure MatchDetails where
  keyword_matches : List String
  skill_matches : List String
  exclude_matches : List String
  job_type_match : Bool
  experience_match : Bool
  location_match : Bool
  individual_scores : IndividualScores
  total_score : ℚ
deriving DecidableEq

namespace AnalysisAgent

/-- Models `AnalysisAgent.analyze_job`.  Note the faithful quirk: the code
inserts `scores['exclusion_penalty'] = exclude_penalty` and then computes
`total_score = sum(scores.values()) - exclude_penalty`, so the penalty is both
added (as a dict value) and subtracted. -/
def analyze_job (self : AnalysisAgent) (now : Int) (job : Job) :
    ℚ × MatchDetails :=
  let text_lower := pyLower (_get_combined_text job)
  let kw := self._calculate_keyword_score text_lower
  let sk := self._calculate_skill_score text_lower
  let jt := self._calculate_job_type_score job
  let ex := _calculate_experience_score job
  let loc := self._calculate_location_score job
  let recency := _calculate_recency_score now job
  let excl := self._check_exclusions text_lower
  let total_score := (kw.1 + sk.1 + jt.1 + ex.1 + loc.1 + recency + excl.1) - excl.1
  let total_clamped := max 0 (min 10 total_score)
  (round2 total_clamped,
   { keyword_matches := kw.2
     skill_matches := sk.2
     exclude_matches := excl.2
     job_type_match := jt.2
     experience_match := ex.2
     location_match := loc.2
     individual_scores :=
       ⟨kw.1, sk.1, jt.1, ex.1, loc.1, recency, excl.1⟩
     total_score := round2 total_clamped })

end AnalysisAgent

/-! ## Rounding lemmas -/

theorem round2_hundredth (n : ℤ) : round2 ((n : ℚ) / 100) = (n : ℚ) / 100 := by
  unfold round2
  rw [show (100 : ℚ) * ((n : ℚ) / 100) = (n : ℚ) by ring, round_intCast]

theorem round2_round2 (x : ℚ) : round2 (round2 x) = round2 x :=
  round2_hundredth _

theorem round2_nonneg {x : ℚ} (hx : 0 ≤ x) : 0 ≤ round2 x := by
  unfold round2
  have h : (0 : ℤ) ≤ round (100 * x) := by
    rw [round_eq]
    exact Int.le_floor.mpr (by push_cast; linarith)
  exact div_nonneg (by exact_mod_cast h) (by norm_num)

theorem round2_le_ten {x : ℚ} (hx : x ≤ 10) : round2 x ≤ 10 := by
  unfold round2
  have h : round (100 * x) ≤ 1000 := by
    rw [round_eq]
    have h2 : ⌊((2001 : ℚ) / 2)⌋ = (1000 : ℤ) := by
      rw [Int.floor_eq_iff]
      norm_num
    calc ⌊(100 * x + 1 / 2 : ℚ)⌋ ≤ ⌊((2001 : ℚ) / 2)⌋ :=
          Int.floor_le_floor (by linarith)
      _ = 1000 := h2
  rw [div_le_iff₀ (by norm_num : (0 : ℚ) < 100)]
  have h' : ((round (100 * x) : ℤ) : ℚ) ≤ (1000 : ℚ) := by exact_mod_cast h
  linarith

namespace AnalysisAgent

/-- Unfolding of the score returned by `analyze_job`.  The code stores
`scores['exclusion_penalty'] = exclude_penalty` before computing
`sum(scores.values()) - exclude_penalty`, so the subtraction cancels the
penalty it just summed: the returned total is the clamped, rounded sum of the
six positive components alone. -/
theorem analyze_job_fst (self : AnalysisAgent) (now : Int) (job : Job) :
    (self.analyze_job now job).1 =
      round2 (max 0 (min 10
        ((self._calculate_keyword_score (pyLower (_get_combined_text job))).1 +
          (self._calculate_skill_score (pyLower (_get_combined_text job))).1 +
          (self._calculate_job_type_score job).1 +
          (_calculate_experience_score job).1 +
          (self._calculate_location_score job).1 +
          _calculate_recency_score now job))) := by
  unfold analyze_job
  ring_nf

/-- C1: the specified combination law fails in the code — `analyze_job` stores
the exclusion penalty inside the very `scores` dict whose values it then sums,
so `sum(scores.values()) - exclude_penalty` cancels the penalty: for every
configuration, clock and job the returned total equals the clamped, rounded
sum of the six positive components with no exclusion penalty subtracted; a
matched exclusion term therefore never lowers the total. -/
theorem analyze_job_exclusion_penalty_cancels (self : AnalysisAgent)
    (now : Int) (job : Job) :
    (self.analyze_job now job).1 =
      round2 (max 0 (min 10
        ((self._calculate_keyword_score (pyLower (_get_combined_text job))).1 +
          (self._calculate_skill_score (pyLower (_get_combined_text job))).1 +
          (self._calculate_job_type_score job).1 +
          (_calculate_experience_score job).1 +
          (self._calculate_location_score job).1 +
          _calculate_recency_score now job))) :=
  analyze_job_fst self now job

/-- C3: for every configuration, clock and job — including jobs with any or
all text fields absent, on which the (total) embedding returns normally — the
total returned by `analyze_job` lies in `[0, 10]` and is a fixed point of
rounding to two decimal places. -/
theorem analyze_job_total_in_range (self : AnalysisAgent) (now : Int)
    (job : Job) :
    0 ≤ (self.analyze_job now job).1 ∧ (self.analyze_job now job).1 ≤ 10 ∧
      round2 (self.analyze_job now job).1 = (self.analyze_job now job).1 := by
  simp only [analyze_job_fst]
  exact ⟨round2_nonneg (le_max_left _ _),
    round2_le_ten (max_le (by norm_num) (min_le_left _ _)),
    round2_round2 _⟩

/-- C9: on the combined title+description+experience_level text, any senior
indicator forces an experience component of 0.0 regardless of junior
indicators; otherwise a junior indicator gives 1.0; otherwise the neutral
0.7. -/
theorem experience_score_senior_precedence (job : Job) :
    (senior_indicators.any (fun s => pyIn s (experienceText job)) = true →
        (_calculate_experience_score job).1 = 0) ∧
      (senior_indicators.any (fun s => pyIn s (experienceText job)) = false →
        junior_indicators.any (fun s => pyIn s (experienceText job)) = true →
        (_calculate_experience_score job).1 = 1) ∧
      (senior_indicators.any (fun s => pyIn s (experienceText job)) = false →
        junior_indicators.any (fun s => pyIn s (experienceText job)) = false →
        (_calculate_experience_score job).1 = 7 / 10) := by
  unfold _calculate_experience_score
  refine ⟨fun h => by simp [h], fun h1 h2 => by simp [h1, h2],
    fun h1 h2 => by simp [h1, h2]⟩

/-- Witness for C9: a posting whose text contains both `senior` and the junior
indicators `junior` and `alternance` still gets experience component 0. -/
theorem experience_score_senior_precedence_witness :
    AnalysisAgent.senior_indicators.any (fun s => pyIn s
        (experienceText { title := some "Senior Data Engineer",
                          description := some "junior alternance welcome" })) = true ∧
      (_calculate_experience_score
        { title := some "Senior Data Engineer",
          description := some "junior alternance welcome" }).1 = 0 :=
  ⟨by decide, (experience_score_senior_precedence _).1 (by decide)⟩

/-- C8 (amended): the recency component is 0.5/0.4/0.3/0.2/0.1 by age for a
parseable naive `post_date`, 0.25 when `post_date` is missing, and — unlike
the claim's 0.1 — also 0.25 when it is unparseable (the `except` branch
returns the same neutral 0.25). -/
theorem recency_score_cases (now : Int) (job : Job) (t : Int) :
    (job.post_date = .missing → _calculate_recency_score now job = 1 / 4) ∧
      (job.post_date = .failed → _calculate_recency_score now job = 1 / 4) ∧
      (job.post_date = .parsed t →
        (((now - t).fdiv 86400 ≤ 1 →
            _calculate_recency_score now job = 1 / 2) ∧
          (1 < (now - t).fdiv 86400 → (now - t).fdiv 86400 ≤ 3 →
            _calculate_recency_score now job = 2 / 5) ∧
          (3 < (now - t).fdiv 86400 → (now - t).fdiv 86400 ≤ 7 →
            _calculate_recency_score now job = 3 / 10) ∧
          (7 < (now - t).fdiv 86400 → (now - t).fdiv 86400 ≤ 14 →
            _calculate_recency_score now job = 1 / 5) ∧
          (14 < (now - t).fdiv 86400 →
            _calculate_recency_score now job = 1 / 10))) := by
  refine ⟨fun h => by simp [_calculate_recency_score, h],
    fun h => by simp [_calculate_recency_score, h], fun h => ?_⟩
  simp only [_calculate_recency_score, h]
  refine ⟨fun h1 => by rw [if_pos h1], fun h1 h2 => ?_, fun h1 h2 => ?_,
    fun h1 h2 => ?_, fun h1 => ?_⟩
  · rw [if_neg (by omega), if_pos h2]
  · rw [if_neg (by omega), if_neg (by omega), if_pos h2]
  · rw [if_neg (by omega), if_neg (by omega), if_neg (by omega), if_pos h2]
  · rw [if_neg (by omega), if_neg (by omega), if_neg (by omega),
      if_neg (by omega)]

/-- Witness for C8: a posting dated 40 days before the clock gets recency 0.1,
and one with a missing date gets 0.25. -/
theorem recency_score_cases_witness :
    ({ post_date := .parsed 0 } : Job).post_date = .parsed 0 ∧
      (14 : Int) < ((3456000 : Int) - 0).fdiv 86400 ∧
      _calculate_recency_score 3456000 ({ post_date := .parsed 0 } : Job) =
        1 / 10 ∧
      ({ } : Job).post_date = .missing ∧
      _calculate_recency_score 3456000 ({ } : Job) = 1 / 4 :=
  ⟨rfl, by decide,
    ((recency_score_cases 3456000 _ 0).2.2 rfl).2.2.2.2 (by decide),
    rfl, (recency_score_cases 3456000 { } 0).1 rfl⟩

/-- Counterexample for C8: an unparseable `post_date` lands in the `except`
branch, which returns 0.25, not the 0.1 the claim asserts. -/
theorem recency_score_unparseable_not_tenth :
    _calculate_recency_score 0 ({ post_date := .failed } : Job) = 1 / 4 ∧
      (1 / 4 : ℚ) ≠ 1 / 10 :=
  ⟨rfl, by norm_num⟩

/-- C7 (amended): `analyze_job` is deterministic in its job, its configuration
and the clock it reads; in particular its output does not depend on the clock
whenever `post_date` is missing or unparseable. -/
theorem analyze_job_clock_independent_unless_parsed (self : AnalysisAgent)
    (job : Job) (n n' : Int)
    (h : job.post_date = .missing ∨ job.post_date = .failed) :
    self.analyze_job n job = self.analyze_job n' job := by
  have hr : _calculate_recency_score n job = _calculate_recency_score n' job := by
    rcases h with h | h <;> simp [_calculate_recency_score, h]
  unfold analyze_job
  rw [hr]

/-- Witness for C7's amended statement: a job with no `post_date` is scored
identically at clock 0 and one day later. -/
theorem analyze_job_clock_independent_unless_parsed_witness :
    (({ } : Job).post_date = .missing ∨ ({ } : Job).post_date = .failed) ∧
      ({ } : AnalysisAgent).analyze_job 0 { } =
        ({ } : AnalysisAgent).analyze_job 86400 { } :=
  ⟨Or.inl rfl,
    analyze_job_clock_independent_unless_parsed { } { } 0 86400 (Or.inl rfl)⟩

/-- Counterexample for C7: with the empty configuration and a job whose
`post_date` parses to the epoch, `analyze_job` reads the current time through
`datetime.now()` and returns 1.8 at clock 0 but 1.4 twenty days later, so the
result is not a function of the job and configuration alone. -/
theorem analyze_job_depends_on_clock :
    (({ } : AnalysisAgent).analyze_job 0
        ({ post_date := .parsed 0 } : Job)).1 ≠
      (({ } : AnalysisAgent).analyze_job 1728000
        ({ post_date := .parsed 0 } : Job)).1 := by
  rw [analyze_job_fst, analyze_job_fst]
  have h1 : _calculate_recency_score 0 ({ post_date := .parsed 0 } : Job) =
      1 / 2 := rfl
  have h2 : _calculate_recency_score 1728000
      ({ post_date := .parsed 0 } : Job) = 1 / 10 := rfl
  have hk : ({ } : AnalysisAgent)._calculate_keyword_score
      (pyLower (_get_combined_text ({ post_date := .parsed 0 } : Job))) =
      (min 4 ((2 / 5 : ℚ) * ((0 : ℕ) : ℚ) + (1 / 5 : ℚ) * ((0 : ℕ) : ℚ)),
        []) := rfl
  have hs : ({ } : AnalysisAgent)._calculate_skill_score
      (pyLower (_get_combined_text ({ post_date := .parsed 0 } : Job))) =
      (min 3 ((3 / 10 : ℚ) * ((0 : ℕ) : ℚ)), []) := rfl
  have hj : ({ } : AnalysisAgent)._calculate_job_type_score
      ({ post_date := .parsed 0 } : Job) = (1 / 2, false) := rfl
  have he : _calculate_experience_score ({ post_date := .parsed 0 } : Job) =
      (7 / 10, true) := rfl
  have hl : ({ } : AnalysisAgent)._calculate_location_score
      ({ post_date := .parsed 0 } : Job) = (1 / 10, false) := rfl
  rw [h1, h2, hk, hs, hj, he, hl]
  norm_num
  rw [show (9 / 5 : ℚ) = ((180 : ℤ) : ℚ) / 100 by norm_num,
    show (7 / 5 : ℚ) = ((140 : ℤ) : ℚ) / 100 by norm_num,
    round2_hundredth, round2_hundredth]
  norm_num

end AnalysisAgent

/-! ## Data model for `utils/database.py` -/

/-- A row of the `jobs` table: the surrogate primary key `id` plus one field
per column written by `insert_job`.  `raw_data` and `match_details` always
hold the `json.dumps` output string. -/
structure JobRow where
  id : Nat
  job_id : Option String := none
  title : Option String := none
  company : Option String := none
  company_size : Option String := none
  location : Option String := none
  description : Option String := none
  requirements : Option String := none
  salary_range : Option String := none
  job_type : Option String := none
  experience_level : Option String := none
  post_date : Option String := none
  application_url : Option String := none
  platform : Option String := none
  raw_data : String := "\x7b\x7d"
  status : String := "scraped"
  relevance_score : Option ℚ := none
  match_details : String := "\x7b\x7d"
deriving DecidableEq

/-- The `job_data` dict passed to `insert_job`.  `status = none` models an
absent key, for which `job_data.get('status', 'scraped')` falls back to
`'scraped'`.  `raw_data` and `match_details` hold the string that
`json.dumps(job_data.get(..., \x7b\x7d))` produces. -/
structure JobData where
  job_id : Option String := none
  title : Option String := none
  company : Option String := none
  company_size : Option String := none
  location : Option String := none
  description : Option String := none
  requirements : Option String := none
  salary_range : Option String := none
  job_type : Option String := none
  experience_level : Option String := none
  post_date : Option String := none
  application_url : Option String := none
  platform : Option String := none
  raw_data : String := "\x7b\x7d"
  status : Option String := none
  relevance_score : Option ℚ := none
  match_details : String := "\x7b\x7d"
deriving DecidableEq

/-- The `jobs` table plus its rowid counter. -/
structure JobsDB where
  rows : List JobRow := []
  next_id : Nat := 1
deriving DecidableEq

namespace DatabaseManager

/-- The row that `insert_job` writes for `jd`, with fresh rowid `id`: every
column comes from the supplied dict (`status` defaulting to `'scraped'`,
`relevance_score` to NULL). -/
def rowOf (jd : JobData) (id : Nat) : JobRow :=
  { id := id
    job_id := jd.job_id
    title := jd.title
    company := jd.company
    company_size := jd.company_size
    location := jd.location
    description := jd.description
    requirements := jd.requirements
    salary_range := jd.salary_range
    job_type := jd.job_type
    experience_level := jd.experience_level
    post_date := jd.post_date
    application_url := jd.application_url
    platform := jd.platform
    raw_data := jd.raw_data
    status := jd.status.getD "scraped"
    relevance_score := jd.relevance_score
    match_details := jd.match_details }

/-- Key conflict under the jobs table's `UNIQUE(job_id, platform)` constraint;
as in SQL, a NULL in either column never conflicts. -/
def keyConflict (a b : JobRow) : Bool :=
  match a.job_id, b.job_id, a.platform, b.platform with
  | some j1, some j2, some p1, some p2 => j1 == j2 && p1 == p2
  | _, _, _, _ => false

/-- Models `insert_job`: an `INSERT OR REPLACE INTO jobs` writing every
column of `jd`.

Modelled from the spec: the repository's `schema.sql` (read by
`_init_database`) is not under `src/`; following the spec's invariant that
`(sourceSystem, externalId)` — here `(platform, job_id)` — is globally unique
among stored postings, the model gives the `jobs` table a
`UNIQUE(job_id, platform)` constraint, so `OR REPLACE` deletes any conflicting
row before inserting the new one (which receives a fresh rowid). -/
def insert_job (db : JobsDB) (jd : JobData) : JobsDB :=
  let newRow := rowOf jd db.next_id
  { rows := db.rows.filter (fun r => !keyConflict r newRow) ++ [newRow]
    next_id := db.next_id + 1 }

/-- The `WHERE job_id = ? AND platform = ?` predicate (SQL `=` never matches
a NULL column). -/
def matchesKey (job_id platform : String) (r : JobRow) : Bool :=
  r.job_id == some job_id && r.platform == some platform

/-- Models `job_exists`: `SELECT 1 FROM jobs WHERE job_id = ? AND platform = ?`. -/
def job_exists (db : JobsDB) (job_id : String) (platform : String) : Bool :=
  db.rows.any (matchesKey job_id platform)

/-- The effect of `update_job_status` on one row: `status` is always
overwritten, `relevance_score` only when one is supplied. -/
def applyStatusUpdate (status : String) (relevance_score : Option ℚ)
    (r : JobRow) : JobRow :=
  match relevance_score with
  | some sc => { r with status := status, relevance_score := some sc }
  | none => { r with status := status }

/-- Models `update_job_status`: an unconditional
`UPDATE jobs SET status = ? [, relevance_score = ?] WHERE id = ?`
(the `updated_at` column is not modelled). -/
def update_job_status (db : JobsDB) (id : Nat) (status : String)
    (relevance_score : Option ℚ) : JobsDB :=
  { db with
    rows := db.rows.map (fun r =>
      if r.id = id then applyStatusUpdate status relevance_score r else r) }

/-- The row with the given surrogate id (`WHERE id = ?`). -/
def find_job (db : JobsDB) (id : Nat) : Option JobRow :=
  db.rows.find? (fun r => r.id == id)

/-- The row with the given `(job_id, platform)` key. -/
def find_by_key (db : JobsDB) (job_id platform : String) : Option JobRow :=
  db.rows.find? (matchesKey job_id platform)

theorem applyStatusUpdate_id (status : String) (sc : Option ℚ) (r : JobRow) :
    (applyStatusUpdate status sc r).id = r.id := by
  cases sc <;> rfl

theorem applyStatusUpdate_status (status : String) (sc : Option ℚ)
    (r : JobRow) : (applyStatusUpdate status sc r).status = status := by
  cases sc <;> rfl

theorem find?_map_update (l : List JobRow) (id : Nat) (status : String)
    (sc : Option ℚ) :
    (l.map (fun r =>
        if r.id = id then applyStatusUpdate status sc r else r)).find?
      (fun r => r.id == id) =
      (l.find? (fun r => r.id == id)).map (applyStatusUpdate status sc) := by
  induction l with
  | nil => rfl
  | cons r l ih =>
    by_cases h : r.id = id
    · simp [List.find?_cons, h, applyStatusUpdate_id]
    · simp [List.find?_cons, h, ih]

/-- C2 (amended): nothing in the code checks a record's current status before
a lifecycle write — `update_job_status` applies the requested status
unconditionally to the row with the given id, whatever state that row is in,
and no `IllegalTransitionError` exists anywhere in the repository; a
transition attempted from an unexpected state is applied silently. -/
theorem update_job_status_unconditional (db : JobsDB) (id : Nat)
    (status : String) (sc : Option ℚ) (r : JobRow)
    (h : find_job db id = some r) :
    find_job (update_job_status db id status sc) id =
        some (applyStatusUpdate status sc r) ∧
      (applyStatusUpdate status sc r).status = status := by
  constructor
  · unfold find_job update_job_status at *
    rw [find?_map_update, h]
    rfl
  · exact applyStatusUpdate_status status sc r

/-- A one-row database whose record sits in state `rejected_low_score`
(used to exercise `update_job_status` for claim C2). -/
def rejectedRowDB : JobsDB :=
  { rows := [{ id := 7, status := "rejected_low_score" }], next_id := 8 }

/-- Witness for C2's amended statement: a record in state
`rejected_low_score` is silently moved to `applied`. -/
theorem update_job_status_unconditional_witness :
    find_job rejectedRowDB 7 = some { id := 7, status := "rejected_low_score" } ∧
      find_job (update_job_status rejectedRowDB 7 "applied" none) 7 =
        some (applyStatusUpdate "applied" none
          { id := 7, status := "rejected_low_score" }) ∧
      (applyStatusUpdate "applied" none
        { id := 7, status := "rejected_low_score" }).status = "applied" :=
  ⟨rfl,
    (update_job_status_unconditional rejectedRowDB 7 "applied" none
      { id := 7, status := "rejected_low_score" } rfl).1,
    (update_job_status_unconditional rejectedRowDB 7 "applied" none
      { id := 7, status := "rejected_low_score" } rfl).2⟩

/-- A one-row database whose record sits in the terminal state `applied`
(used to refute claim C2). -/
def appliedRowDB : JobsDB :=
  { rows := [{ id := 1, status := "applied" }], next_id := 2 }

/-- Counterexample for C2: a job record in state `applied` is updated to
`scraped` — not the expected prior state of any transition — and the write
goes through silently (the record's status changes and nothing fails),
contradicting the claim that such an update fails with
`IllegalTransitionError` and leaves the record in its prior state. -/
theorem update_job_status_no_illegal_transition_error :
    find_job (update_job_status appliedRowDB 1 "scraped" none) 1 =
        some { id := 1, status := "scraped" } ∧
      ("scraped" : String) ≠ "applied" :=
  ⟨rfl, by decide⟩

/-- Invariant: at most one stored row per `(job_id, platform)` pair. -/
def UniqueKeys (db : JobsDB) : Prop :=
  ∀ (j p : String), db.rows.countP (matchesKey j p) ≤ 1

theorem keyConflict_of_matchesKey {r s : JobRow} {j p : String}
    (hr : matchesKey j p r = true) (hs : matchesKey j p s = true) :
    keyConflict r s = true := by
  simp only [matchesKey, Bool.and_eq_true, beq_iff_eq] at hr hs
  simp [keyConflict, hr.1, hr.2, hs.1, hs.2]

theorem matchesKey_rowOf {jd : JobData} {jid p : String} (n : Nat)
    (h1 : jd.job_id = some jid) (h2 : jd.platform = some p) :
    matchesKey jid p (rowOf jd n) = true := by
  simp [matchesKey, rowOf, h1, h2]

/-- No row matching the key of the freshly inserted row survives the
`OR REPLACE` deletion. -/
theorem find?_filter_keyConflict_eq_none (rows : List JobRow) (jd : JobData)
    (n : Nat) {jid p : String}
    (h1 : jd.job_id = some jid) (h2 : jd.platform = some p) :
    (rows.filter (fun r => !keyConflict r (rowOf jd n))).find?
      (matchesKey jid p) = none := by
  rw [List.find?_eq_none]
  intro r hr hk
  rcases List.mem_filter.mp hr with ⟨_, hpass⟩
  have hc : keyConflict r (rowOf jd n) = true :=
    keyConflict_of_matchesKey hk (matchesKey_rowOf n h1 h2)
  simp [hc] at hpass

/-- Inserting `jd` preserves the at-most-one-row-per-key invariant: the
`OR REPLACE` first deletes every row conflicting with the new one. -/
theorem insert_job_uniqueKeys (db : JobsDB) (jd : JobData)
    (hu : UniqueKeys db) : UniqueKeys (insert_job db jd) := by
  intro j p
  unfold insert_job
  simp only [List.countP_append]
  by_cases hm : matchesKey j p (rowOf jd db.next_id)
  · have h0 : (db.rows.filter
        (fun r => !keyConflict r (rowOf jd db.next_id))).countP
        (matchesKey j p) = 0 := by
      rw [List.countP_eq_zero]
      intro r hr hk
      rcases List.mem_filter.mp hr with ⟨_, hpass⟩
      have hc : keyConflict r (rowOf jd db.next_id) = true :=
        keyConflict_of_matchesKey hk hm
      simp [hc] at hpass
    simp [h0, List.countP_cons, hm]
  · have h1 : ([rowOf jd db.next_id].countP (matchesKey j p)) = 0 := by
      simp [List.countP_cons, hm]
    have h2 : (db.rows.filter
        (fun r => !keyConflict r (rowOf jd db.next_id))).countP
        (matchesKey j p) ≤ 1 :=
      le_trans ((List.filter_sublist _).countP_le _) (hu j p)
    omega

/-- C10: `insert_job` alone is a whole-row `INSERT OR REPLACE`: called for a
`(job_id, platform)` key that already has a stored row `r0`, it deletes that
row and stores a fresh row built entirely from the supplied dict — in
particular `status` reverts to the incoming value (default `'scraped'`) and
`relevance_score` and `match_details` to the incoming values, whatever `r0`
held.  The preserve-on-duplicate guarantee therefore rests solely on callers
checking `job_exists` first. -/
theorem insert_job_overwrites_existing_row (db : JobsDB) (jd : JobData)
    (jid p : String) (r0 : JobRow)
    (h1 : jd.job_id = some jid) (h2 : jd.platform = some p)
    (_h0 : find_by_key db jid p = some r0) :
    find_by_key (insert_job db jd) jid p = some (rowOf jd db.next_id) ∧
      (rowOf jd db.next_id).status = jd.status.getD "scraped" ∧
      (rowOf jd db.next_id).relevance_score = jd.relevance_score ∧
      (rowOf jd db.next_id).match_details = jd.match_details := by
  refine ⟨?_, rfl, rfl, rfl⟩
  unfold find_by_key insert_job
  rw [List.find?_append, find?_filter_keyConflict_eq_none db.rows jd db.next_id h1 h2]
  simp [List.find?_cons, matchesKey_rowOf db.next_id h1 h2]

/-- A one-row database holding an analyzed, scored record for the key
`(linkedin_42, linkedin)` (used for claim C10). -/
def analyzedRowDB : JobsDB :=
  { rows := [{ id := 3, job_id := some "linkedin_42",
               platform := some "linkedin", status := "analyzed",
               relevance_score := some 8, match_details := "details" }]
    next_id := 4 }

/-- The freshly scraped dict for the same `(linkedin_42, linkedin)` key with
no `status`, `relevance_score` or `match_details` (used for claim C10). -/
def rescrapedData : JobData :=
  { job_id := some "linkedin_42", platform := some "linkedin" }

/-- Witness for C10: re-inserting a dict for a key whose stored row is
`analyzed` with score 8 yields a row whose `status` is back to `scraped` and
whose `relevance_score` is NULL. -/
theorem insert_job_overwrites_existing_row_witness :
    rescrapedData.job_id = some "linkedin_42" ∧
      rescrapedData.platform = some "linkedin" ∧
      find_by_key analyzedRowDB "linkedin_42" "linkedin" =
        some { id := 3, job_id := some "linkedin_42",
               platform := some "linkedin", status := "analyzed",
               relevance_score := some 8, match_details := "details" } ∧
      find_by_key (insert_job analyzedRowDB rescrapedData) "linkedin_42"
          "linkedin" = some (rowOf rescrapedData 4) ∧
      (rowOf rescrapedData 4).status = "scraped" ∧
      (rowOf rescrapedData 4).relevance_score = none :=
  ⟨rfl, rfl, rfl,
    (insert_job_overwrites_existing_row analyzedRowDB rescrapedData
      "linkedin_42" "linkedin" _ rfl rfl rfl).1,
    rfl, rfl⟩

end DatabaseManager

namespace ScrapingAgent

open DatabaseManager

/-- Models the dedup guard in each scraper loop body
(`scrape_linkedin` lines 122–127, and likewise `scrape_indeed` and
`scrape_welcometothejungle`):
`if job_data and not self.db.job_exists(job_data['job_id'], platform):
self.db.insert_job(job_data)`.  The `job_id` argument stands for
`job_data['job_id']`; the returned boolean is whether a new record was stored
(`new_jobs_count += 1`). -/
def ingest_scraped_job (db : JobsDB) (platform : String) (job_id : String)
    (jd : JobData) : JobsDB × Bool :=
  if job_exists db job_id platform then (db, false)
  else (insert_job db jd, true)

/-- A whole scraping run's worth of ingestions, each through the dedup
guard. -/
def ingest_all (db : JobsDB) (items : List (String × String × JobData)) :
    JobsDB :=
  items.foldl (fun d it => (ingest_scraped_job d it.1 it.2.1 it.2.2).1) db

theorem job_exists_insert (db : JobsDB) (jd : JobData) {jid p : String}
    (h1 : jd.job_id = some jid) (h2 : jd.platform = some p) :
    job_exists (insert_job db jd) jid p = true := by
  unfold job_exists insert_job
  simp [List.any_append, matchesKey_rowOf db.next_id h1 h2]

theorem job_exists_after_ingest (db : JobsDB) (platform jid : String)
    (jd : JobData) (h1 : jd.job_id = some jid)
    (h2 : jd.platform = some platform) :
    job_exists (ingest_scraped_job db platform jid jd).1 jid platform = true := by
  unfold ingest_scraped_job
  by_cases h : job_exists db jid platform
  · simp [h]
  · simpa [h] using job_exists_insert db jd h1 h2

theorem ingest_scraped_job_uniqueKeys (db : JobsDB) (platform jid : String)
    (jd : JobData) (hu : UniqueKeys db) :
    UniqueKeys (ingest_scraped_job db platform jid jd).1 := by
  unfold ingest_scraped_job
  by_cases h : job_exists db jid platform
  · simpa [h]
  · simpa [h] using insert_job_uniqueKeys db jd hu

theorem ingest_all_uniqueKeys (items : List (String × String × JobData)) :
    ∀ db : JobsDB, UniqueKeys db → UniqueKeys (ingest_all db items) := by
  induction items with
  | nil => exact fun db hu => hu
  | cons it rest ih =>
    intro db hu
    exact ih _ (ingest_scraped_job_uniqueKeys db it.1 it.2.1 it.2.2 hu)

/-- C4: ingesting the same `(platform, job_id)` pair twice stores exactly one
record — after a first ingestion of the pair, a second ingestion (with any
payload for the same key) is reported as a duplicate and leaves the database
literally unchanged, so the stored record's `status` and `relevance_score`
are never reset; and any sequence of guarded ingestions preserves the
at-most-one-record-per-pair invariant. -/
theorem ingest_same_pair_twice (db : JobsDB) (p jid : String)
    (jd jd' : JobData) (h1 : jd.job_id = some jid) (h2 : jd.platform = some p) :
    ingest_scraped_job (ingest_scraped_job db p jid jd).1 p jid jd' =
        ((ingest_scraped_job db p jid jd).1, false) ∧
      (∀ items : List (String × String × JobData),
        UniqueKeys db → UniqueKeys (ingest_all db items)) := by
  constructor
  · have h := job_exists_after_ingest db p jid jd h1 h2
    unfold ingest_scraped_job at h ⊢
    simp [h]
  · exact fun items => ingest_all_uniqueKeys items db

/-- Witness for C4: ingesting the pair `(linkedin, linkedin_42)` twice into
the empty database stores one record and reports the second call as a
duplicate. -/
theorem ingest_same_pair_twice_witness :
    DatabaseManager.rescrapedData.job_id = some "linkedin_42" ∧
      DatabaseManager.rescrapedData.platform = some "linkedin" ∧
      ingest_scraped_job
          (ingest_scraped_job { } "linkedin" "linkedin_42"
            DatabaseManager.rescrapedData).1 "linkedin" "linkedin_42"
          DatabaseManager.rescrapedData =
        ((ingest_scraped_job { } "linkedin" "linkedin_42"
          DatabaseManager.rescrapedData).1, false) ∧
      UniqueKeys (ingest_all { } [("linkedin", "linkedin_42",
        DatabaseManager.rescrapedData)]) :=
  ⟨rfl, rfl,
    (ingest_same_pair_twice { } "linkedin" "linkedin_42"
      DatabaseManager.rescrapedData DatabaseManager.rescrapedData rfl rfl).1,
    (ingest_same_pair_twice { } "linkedin" "linkedin_42"
      DatabaseManager.rescrapedData DatabaseManager.rescrapedData rfl rfl).2
      [("linkedin", "linkedin_42", DatabaseManager.rescrapedData)]
      (fun j p => by simp [JobsDB.rows])⟩

end ScrapingAgent

/-! ## Data model for the `applications` table and `application_agent.py` -/

/-- A row of the `applications` table as far as the daily cap is concerned:
the job it belongs to and the calendar day of its `application_date`
(`DATE(application_date)`), as an abstract day number. -/
structure AppRow where
  job_id : Nat
  day : Int
deriving DecidableEq

namespace ApplicationAgent

/-- Models `_get_todays_application_count`, i.e. `get_application_stats`'s
`SELECT COUNT(*) FROM applications WHERE DATE(application_date) =
DATE('now')`: the count is recomputed from the persisted table on every
call. -/
def _get_todays_application_count (apps : List AppRow) (today : Int) : Nat :=
  apps.countP (fun a => a.day == today)

/-- The configuration read by `ApplicationAgent.__init__`:
`application.daily_limit`, `application.auto_apply` and
`application.auto_apply_threshold`. -/
structure AgentConfig where
  daily_limit : Nat
  auto_apply : Bool
  auto_apply_threshold : ℚ
deriving DecidableEq

/-- A shortlisted job as the `run` loop sees it: its surrogate id, its
`job.get('relevance_score', 0)` and its platform. -/
structure RunJob where
  id : Nat
  relevance_score : ℚ := 0
  platform : String
deriving DecidableEq

/-- Models the database effect of `apply_to_job` on the applications table in
a successful iteration: a dry run writes nothing; otherwise the three known
platforms each call `insert_application`, which appends one row dated `day`;
an unknown platform only logs and returns `False`.  (`insert_application`
also flips the job's status to `applied`; only the applications table matters
for the daily cap.) -/
def apply_to_job (apps : List AppRow) (day : Int) (job : RunJob)
    (dry_run : Bool) : List AppRow :=
  if dry_run then apps
  else if job.platform == "linkedin" || job.platform == "indeed" ||
      job.platform == "welcometothejungle" then
    apps ++ [⟨job.id, day⟩]
  else apps

/-- The `for job in jobs_to_apply` loop of `run`: each iteration first
re-reads today's count from the table and breaks once it has reached
`daily_limit`; below-threshold (or non-auto-apply) jobs are marked
`pending_review` and write nothing to the applications table.  Each iteration
carries the calendar day at which it executes, so a run may cross
midnight. -/
def run_loop (cfg : AgentConfig) (dry_run : Bool) :
    List (Int × RunJob) → List AppRow → List AppRow
  | [], apps => apps
  | (day, job) :: rest, apps =>
    if !dry_run &&
        decide (cfg.daily_limit ≤ _get_todays_application_count apps day) then
      apps
    else
      run_loop cfg dry_run rest
        (if !cfg.auto_apply ||
            decide (job.relevance_score < cfg.auto_apply_threshold) then
          apps
        else apply_to_job apps day job dry_run)

/-- Models `ApplicationAgent.run` as its effect on the applications table: the
up-front daily-limit check (non-dry runs return immediately when today's
persisted count already meets the limit), then the application loop.  `day0`
is the calendar day when the run starts. -/
def run (cfg : AgentConfig) (dry_run : Bool) (day0 : Int)
    (jobs : List (Int × RunJob)) (apps : List AppRow) : List AppRow :=
  if !dry_run &&
      decide (cfg.daily_limit ≤ _get_todays_application_count apps day0) then
    apps
  else run_loop cfg dry_run jobs apps

theorem run_loop_dry_run (cfg : AgentConfig) :
    ∀ (jobs : List (Int × RunJob)) (apps : List AppRow),
      run_loop cfg true jobs apps = apps := by
  intro jobs
  induction jobs with
  | nil => intro apps; rfl
  | cons hd rest ih =>
    intro apps
    obtain ⟨day, job⟩ := hd
    unfold run_loop
    simp [apply_to_job, ih]

theorem run_loop_daily_count (cfg : AgentConfig) (dry_run : Bool) :
    ∀ (jobs : List (Int × RunJob)) (apps : List AppRow) (d : Int),
      _get_todays_application_count (run_loop cfg dry_run jobs apps) d ≤
        max (_get_todays_application_count apps d) cfg.daily_limit := by
  cases dry_run
  case true =>
    intro jobs apps d
    rw [run_loop_dry_run]
    exact le_max_left _ _
  case false =>
  intro jobs
  induction jobs with
  | nil => intro apps d; exact le_max_left _ _
  | cons hd rest ih =>
    intro apps d
    obtain ⟨day, job⟩ := hd
    unfold run_loop
    by_cases hbrk : cfg.daily_limit ≤ _get_todays_application_count apps day
    · simp only [Bool.not_false, Bool.true_and, decide_eq_true_eq, if_pos hbrk]
      exact le_max_left _ _
    · simp only [Bool.not_false, Bool.true_and, decide_eq_true_eq, if_neg hbrk]
      have key : ∀ apps' : List AppRow,
          _get_todays_application_count apps' d ≤
            max (_get_todays_application_count apps d) cfg.daily_limit →
          _get_todays_application_count (run_loop cfg false rest apps') d ≤
            max (_get_todays_application_count apps d) cfg.daily_limit :=
        fun apps' h =>
          le_trans (ih apps' d) (max_le h (le_max_right _ _))
      by_cases hrev : (!cfg.auto_apply ||
          decide (job.relevance_score < cfg.auto_apply_threshold)) = true
      · rw [if_pos hrev]
        exact key apps (le_max_left _ _)
      · rw [if_neg hrev]
        apply key
        unfold apply_to_job
        by_cases hplat : (job.platform == "linkedin" ||
            job.platform == "indeed" ||
            job.platform == "welcometothejungle") = true
        · simp only [Bool.false_eq_true, if_false, if_pos hplat]
          unfold _get_todays_application_count at *
          rw [List.countP_append]
          by_cases hd : ((⟨job.id, day⟩ : AppRow).day == d) = true
          · have hday : day = d := by simpa using hd
            have hlt : List.countP (fun a => a.day == d) apps <
                cfg.daily_limit := by
              rw [← hday]
              omega
            simp only [List.countP_cons, List.countP_nil, hd, if_true]
            omega
          · simp only [List.countP_cons, List.countP_nil, hd,
              Bool.false_eq_true, if_false]
            omega
        · simp only [Bool.false_eq_true, if_false, if_neg hplat]
          exact le_max_left _ _

/-- C6: for every run — dry or not, with any job list, any per-iteration
calendar days and any pre-existing persisted applications table (so in
particular across process restarts) — the persisted number of applications
dated to any single calendar day `d` after the run never exceeds the larger
of the day's pre-run count and the configured daily limit: the cap is
re-derived from the persisted table before the run and before each
submission, and the run stops submitting for the day once the count reaches
the limit. -/
theorem run_never_exceeds_daily_limit (cfg : AgentConfig) (dry_run : Bool)
    (day0 : Int) (jobs : List (Int × RunJob)) (apps : List AppRow) (d : Int) :
    _get_todays_application_count (run cfg dry_run day0 jobs apps) d ≤
      max (_get_todays_application_count apps d) cfg.daily_limit := by
  unfold run
  by_cases h : (!dry_run &&
      decide (cfg.daily_limit ≤ _get_todays_application_count apps day0)) = true
  · rw [if_pos h]
    exact le_max_left _ _
  · rw [if_neg h]
    exact run_loop_daily_count cfg dry_run jobs apps d

end ApplicationAgent

/-! ## `RateLimiter` from `utils/anti_detection.py` -/

/-- The `RateLimiter` object: its configuration plus the `self.requests` list
of recorded `time.time()` stamps. -/
structure RateLimiter where
  max_requests : Nat
  time_window : ℚ
  requests : List ℚ := []
deriving DecidableEq

namespace RateLimiter

/-- The purge performed inside `can_make_request`:
`self.requests = [t for t in self.requests if now - t < self.time_window]`. -/
def purge (rl : RateLimiter) (now : ℚ) : RateLimiter :=
  { rl with
    requests := rl.requests.filter (fun t => decide (now - t < rl.time_window)) }

/-- Models `can_make_request`: purges expired stamps (a mutation of
`self.requests`) and compares what is left against `max_requests`. -/
def can_make_request (rl : RateLimiter) (now : ℚ) : RateLimiter × Bool :=
  (rl.purge now, decide ((rl.purge now).requests.length < rl.max_requests))

/-- Models `record_request`: `self.requests.append(time.time())`. -/
def record_request (rl : RateLimiter) (now : ℚ) : RateLimiter :=
  { rl with requests := rl.requests ++ [now] }

/-- One caller step at one instant: either a bare `can_make_request` call
(which still purges), or the disciplined check-then-act pattern the claim
describes, where `record_request` is invoked at the same instant exactly when
`can_make_request` returned `True`. -/
inductive Event where
  | check (t : ℚ)
  | request (t : ℚ)
deriving DecidableEq

/-- The instant at which an event happens. -/
def Event.time : Event → ℚ
  | .check t => t
  | .request t => t

/-- Runs a trace of interleaved calls against the limiter, returning the
final state and the timestamps of the admitted (recorded) requests in
order. -/
def runTrace (rl : RateLimiter) : List Event → RateLimiter × List ℚ
  | [] => (rl, [])
  | .check t :: rest => runTrace (rl.can_make_request t).1 rest
  | .request t :: rest =>
    let c := rl.can_make_request t
    if c.2 then
      let res := runTrace (c.1.record_request t) rest
      (res.1, t :: res.2)
    else runTrace c.1 rest

/-- Purging at a later instant collapses a double filter: stamps inside the
window at time `t ≥ C` were also inside the window at time `C`. -/
theorem filter_purge_collapse (A : List ℚ) (C t W : ℚ) (hCt : C ≤ t) :
    (A.filter (fun s => decide (C - s < W))).filter
        (fun s => decide (t - s < W)) =
      A.filter (fun s => decide (t - s < W)) := by
  rw [List.filter_filter]
  apply List.filter_congr
  intro s _
  by_cases h : t - s < W
  · simp [h, show C - s < W by linarith]
  · simp [h]

/-- Invariant of `runTrace`: if `A` lists the already-recorded stamps, the
limiter's stored list is exactly the members of `A` still inside the window
of the last purge instant `C`, all event times are at least `T ≥ C` and
nondecreasing, and at most `maxR` members of `A` fall in the window
`[a, a + W)`, then the recorded stamps of `A` and of the rest of the run
together still have at most `maxR` members in `[a, a + W)`. -/
theorem runTrace_window_invariant (maxR : Nat) (W a : ℚ) (hW : 0 < W) :
    ∀ (trace : List Event) (A : List ℚ) (C T : ℚ),
      List.Chain (· ≤ ·) T (trace.map Event.time) → C ≤ T →
      A.countP (fun s => decide (a ≤ s ∧ s < a + W)) ≤ maxR →
      A.countP (fun s => decide (a ≤ s ∧ s < a + W)) +
          ((runTrace ⟨maxR, W, A.filter (fun s => decide (C - s < W))⟩
            trace).2).countP (fun s => decide (a ≤ s ∧ s < a + W)) ≤ maxR := by
  intro trace
  induction trace with
  | nil =>
    intro A C T _ _ hcnt
    simpa [runTrace] using hcnt
  | cons ev rest ih =>
    intro A C T hchain hCT hcnt
    cases hchain with
    | cons hTt hch =>
    cases ev with
    | check t =>
      have hCt : C ≤ t := le_trans hCT hTt
      simp only [runTrace, can_make_request, purge]
      rw [filter_purge_collapse A C t W hCt]
      exact ih A t t hch le_rfl hcnt
    | request t =>
      have hCt : C ≤ t := le_trans hCT hTt
      simp only [runTrace, can_make_request, purge]
      simp only [filter_purge_collapse A C t W hCt]
      by_cases hadm :
          (A.filter (fun s => decide (t - s < W))).length < maxR
      · rw [if_pos (by simpa using hadm)]
        have hfil1 : List.filter (fun s => decide (t - s < W)) [t] = [t] := by
          simp [sub_self, hW]
        have hrec : A.filter (fun s => decide (t - s < W)) ++ [t] =
            (A ++ [t]).filter (fun s => decide (t - s < W)) := by
          rw [List.filter_append, hfil1]
        have hcnt' : (A ++ [t]).countP
            (fun s => decide (a ≤ s ∧ s < a + W)) ≤ maxR := by
          by_cases hwin : a ≤ t ∧ t < a + W
          · have h1 : A.countP (fun s => decide (a ≤ s ∧ s < a + W)) ≤
                A.countP (fun s => decide (t - s < W)) := by
              apply List.countP_mono_left
              intro s _ hws
              have hp := of_decide_eq_true hws
              exact decide_eq_true
                (by obtain ⟨h3, h4⟩ := hp; linarith [hwin.1, hwin.2])
            have h2 : A.countP (fun s => decide (t - s < W)) =
                (A.filter (fun s => decide (t - s < W))).length := by
              rw [List.countP_eq_length_filter]
            have h3 : A.countP (fun s => decide (a ≤ s ∧ s < a + W)) < maxR :=
              lt_of_le_of_lt (le_trans h1 (le_of_eq h2)) hadm
            have hwt : decide (a ≤ t ∧ t < a + W) = true := decide_eq_true hwin
            simp only [List.countP_append, List.countP_cons, List.countP_nil,
              hwt, if_true]
            omega
          · have hwt : decide (a ≤ t ∧ t < a + W) = false :=
              decide_eq_false hwin
            simp only [List.countP_append, List.countP_cons, List.countP_nil,
              hwt, Bool.false_eq_true, if_false]
            omega
        have hih := ih (A ++ [t]) t t hch le_rfl hcnt'
        simp only [record_request]
        rw [hrec]
        rw [List.countP_append] at hih
        simp only [List.countP_cons, List.countP_nil] at hih ⊢
        omega
      · rw [if_neg (by simpa using hadm)]
        exact ih A t t hch le_rfl hcnt

end RateLimiter

/-- C5: starting from a fresh `RateLimiter`, for every temporally ordered
sequence of interleaved `can_make_request` / `record_request` calls in which
a request is recorded exactly when `can_make_request` returned `True` at the
same instant, no more than `max_requests` of the recorded timestamps fall
within any rolling window `[a, a + time_window)` of length `time_window`. -/
theorem rate_limiter_bounds_rolling_window (maxR : Nat) (W : ℚ) (hW : 0 < W)
    (trace : List RateLimiter.Event) (a : ℚ)
    (hmono : List.Chain' (· ≤ ·) (trace.map RateLimiter.Event.time)) :
    ((RateLimiter.runTrace ⟨maxR, W, []⟩ trace).2).countP
      (fun s => decide (a ≤ s ∧ s < a + W)) ≤ maxR := by
  cases trace with
  | nil => simp [RateLimiter.runTrace]
  | cons ev rest =>
    rw [List.map_cons] at hmono
    have hch : List.Chain (· ≤ ·) ev.time
        ((ev :: rest).map RateLimiter.Event.time) := by
      rw [List.map_cons]
      exact List.Chain.cons le_rfl hmono
    have h := RateLimiter.runTrace_window_invariant maxR W a hW (ev :: rest)
      [] ev.time ev.time hch le_rfl (by simp)
    simpa using h

/-- Witness for C5: a fresh limiter with `max_requests = 1` and
`time_window = 1`, exercised by admission-gated requests at times 0 and 1;
the window starting at 0 holds at most one admitted request. -/
theorem rate_limiter_bounds_rolling_window_witness :
    (0 : ℚ) < 1 ∧
      List.Chain' (· ≤ ·)
        (([RateLimiter.Event.request 0, RateLimiter.Event.request 1]).map
          RateLimiter.Event.time) ∧
      ((RateLimiter.runTrace ⟨1, 1, []⟩
          [RateLimiter.Event.request 0, RateLimiter.Event.request 1]).2).countP
        (fun s => decide ((0 : ℚ) ≤ s ∧ s < 0 + 1)) ≤ 1 :=
  ⟨zero_lt_one, by simp [RateLimiter.Event.time],
    rate_limiter_bounds_rolling_window 1 1 zero_lt_one
      [RateLimiter.Event.request 0, RateLimiter.Event.request 1] 0
      (by simp [RateLimiter.Event.time])⟩

end JobApp
